import Mathlib

/-!
Shallow embedding of the `simple_privi` aggregation-and-noising core
(`src/dataset.rs`, `src/noiser.rs`), together with theorems settling the
spec claims about it.

Modelling conventions:
* Rust `&str`/`String` values are Lean `String`s.  The string-splitting
  primitives used by the aggregation pipeline (`str::split` with a one-char
  separator, `str::lines`, `str::trim`) are re-implemented by structural
  recursion over the character list, so that every definition is executable
  by the kernel.  `trim` is modelled on ASCII whitespace, which is the only
  whitespace that can occur around the delimited numeric tokens handled here.
* `u64` counters are modelled as `Nat` with the saturating additions of the
  source made explicit (`min _ U64_MAX`); `u64` noised values are modelled
  as `Int` clamped to `[0, U64_MAX]`, making the (un)signedness of the
  noised vector a provable property rather than a typing accident.
* `f64` parameters (`alpha`) are modelled as `ℚ`; the only operations the
  code performs on them are order comparisons against 0 and 1, where the
  rational model agrees with the double model for the values involved.
* Randomized noise draws are modelled by an explicit oracle `noise : Nat → Int`
  giving the sample added to the entry at each index; panics (`unwrap` on a
  failed stage) and `Result`/`Option` failures both surface as `none`.
-/

namespace SimplePrivi

/-! ### Rust string primitives, modelled structurally -/

/-- Model of Rust `str::split` with a single-character separator, on the
character list: `"a,b"` splits to `[['a'], ['b']]`, and the empty string
splits to one empty piece, exactly as in Rust. -/
def splitChars (sep : Char) : List Char → List (List Char)
  | [] => [[]]
  | c :: cs =>
    if c = sep then [] :: splitChars sep cs
    else
      match splitChars sep cs with
      | [] => [[c]]
      | r :: rs => (c :: r) :: rs

/-- Model of Rust `str::split` with a single-character separator. -/
def rustSplit (sep : Char) (s : String) : List String :=
  (splitChars sep s.toList).map (fun cs => ⟨cs⟩)

/-- ASCII whitespace, the fragment of Unicode `White_Space` relevant to the
delimited numeric tokens this pipeline handles. -/
def isSpaceChar (c : Char) : Bool :=
  c = ' ' || c = '\t' || c = '\n' || c = '\r'

/-- Model of Rust `str::trim` (restricted to ASCII whitespace). -/
def rustTrim (s : String) : String :=
  ⟨((s.toList.dropWhile isSpaceChar).reverse.dropWhile isSpaceChar).reverse⟩

/-- Model of Rust `str::lines`: split on `'\n'`, drop the empty piece
produced by a trailing newline, and strip one trailing `'\r'` per line. -/
def rustLines (s : String) : List String :=
  let parts := rustSplit '\n' s
  let parts := if parts.getLast? = some "" then parts.dropLast else parts
  parts.map (fun l =>
    if l.toList.getLast? = some '\r' then ⟨l.toList.dropLast⟩ else l)

/-! ### `src/dataset.rs` -/

/-- Constant `COLUMNS: &[&str]` of `dataset.rs`. -/
def COLUMNS : List String := ["age", "sex", "educ", "race", "income", "married"]

/-- Structure `CsvDataSet` of `dataset.rs`: a borrowed raw text body. -/
structure CsvDataSet where
  data : String
deriving DecidableEq

/-- Method `CsvDataSet::columns`: the constant column-name sequence. -/
def CsvDataSet.columns (_ds : CsvDataSet) : List String := COLUMNS

/-- Method `CsvDataSet::aggregate_buckets`: `"income"` maps to
`(10000..210000).step_by(10000)` rendered in decimal, every other field to
`(1..21)` rendered in decimal.  The receiver is ignored by the source body,
which is what makes the enumeration a pure function of the field name. -/
def CsvDataSet.aggregate_buckets (_ds : CsvDataSet) (field : String) : List String :=
  if field = "income" then (List.range 20).map (fun i => toString ((i + 1) * 10000))
  else (List.range 20).map (fun i => toString (i + 1))

/-! ### The opendp transformation chain of `aggregate_data_chain`

`make_split_dataframe >> make_select_column >> make_count_by_categories`,
modelled from the opendp transformations the source composes:
* `make_split_dataframe(",", columns)` splits the body into lines, each line
  at the separator, trims each token, and pads/truncates each record to the
  number of columns;
* `make_select_column(field)` projects the column whose name is `field`,
  failing when no column has that name;
* `make_count_by_categories(categories, true)` counts, per category, the
  values equal to it (with `u64` saturating increments), and — because the
  source passes `null_category = true` — appends one extra count of the
  values matching no category. -/

/-- Value of `u64::MAX`. -/
def U64_MAX : Nat := 18446744073709551615

/-- Lines split at the separator and trimmed, as `make_split_dataframe` does
before conforming records. -/
def split_records (separator : Char) (s : String) : List (List String) :=
  (rustLines s).map (fun line => (rustSplit separator line).map rustTrim)

/-- Record conformation of opendp `create_dataframe`: pad a short record
with empty strings, truncate a long one. -/
def conform_record (len : Nat) (r : List String) : List String :=
  if r.length < len then r ++ List.replicate (len - r.length) ""
  else r.take len

/-- Column selection of `make_select_column`: the values of the column named
`field`, or `none` when the dataframe has no such column. -/
def select_column (colNames : List String) (field : String)
    (records : List (List String)) : Option (List String) :=
  match colNames.findIdx? (fun c => c = field) with
  | none => none
  | some i => some (records.map (fun r => (conform_record colNames.length r).getD i ""))

/-- A `u64` counter incremented once per value satisfying `p`, with the
source's saturating addition made explicit. -/
def sat_count (p : String → Bool) (data : List String) : Nat :=
  data.foldl (fun c v => if p v then min (c + 1) U64_MAX else c) 0

/-- Model of `make_count_by_categories(cats, true)`: one saturating count per
category, in category order, plus the trailing null-category count of the
values matching no category. -/
def count_by_categories (cats : List String) (data : List String) : List Nat :=
  cats.map (fun cat => sat_count (fun v => v == cat) data)
    ++ [sat_count (fun v => !(cats.contains v)) data]

/-- Constant `CSV_SEPARATOR` of `noiser.rs` (a one-character separator). -/
def CSV_SEPARATOR : Char := ','

/-- The composed chain of `aggregate_data_chain`, already applied to the
dataset body as `Noiser::aggregate_data` does: split the body into a
dataframe, select the aggregation field's column, count by the field's
bucket enumeration (with the null category).  `none` models both a failed
chain construction and a failed invocation. -/
def aggregate (ds : CsvDataSet) (field : String) : Option (List Nat) :=
  (select_column ds.columns field (split_records CSV_SEPARATOR ds.data)).map
    (count_by_categories (ds.aggregate_buckets field))

/-! ### `src/noiser.rs` -/

/-- Enum `NoiseType` of `noiser.rs`. -/
inductive NoiseType where
  | Laplace
  | Gaussian
deriving DecidableEq

/-- The `Noiser` state record of `noiser.rs`.  `aggregated_data` is the
cached true-count vector (`Vec<u64>`), `noised_data` the cached noised
vector (also `Vec<u64>` in the source; kept as clamped `Int` here, see the
header comment). -/
structure Noiser where
  dataset : CsvDataSet
  aggregate_field : String
  noise_type : NoiseType
  accuracy : Nat
  alpha : ℚ
  aggregated_data : List Nat
  noised_data : List Int
deriving DecidableEq

/-- The literal `0.05` that `Noiser::new` assigns to `alpha`, i.e. `1/20`
(written via the anonymous constructor so that the kernel can evaluate
comparisons against it directly). -/
def defaultAlpha : ℚ := ⟨1, 20, by decide, Nat.coprime_one_left _⟩

/-- Modelled from the spec: opendp's `accuracy_to_discrete_laplacian_scale`
is not part of this repository; per spec §4.3 it must fail exactly when
`accuracy ≤ 0` or `alpha` lies outside the open interval `(0,1)`, and
otherwise returns a strictly positive scale.  The numeric value of the
scale is an implementation detail the spec leaves open (§9); it is
abstracted here as the (positive) accuracy itself, which no claim inspects. -/
def accuracy_to_discrete_laplacian_scale (accuracy alpha : ℚ) : Option ℚ :=
  if 0 < accuracy ∧ 0 < alpha ∧ alpha < 1 then some accuracy else none

/-- Modelled from the spec: opendp's `accuracy_to_discrete_gaussian_scale`,
with the same failure contract as the laplacian calibration (spec §4.3);
the numeric scale value is likewise abstracted. -/
def accuracy_to_discrete_gaussian_scale (accuracy alpha : ℚ) : Option ℚ :=
  if 0 < accuracy ∧ 0 < alpha ∧ alpha < 1 then some accuracy else none

/-- Clamp of a noised value into the `u64` range, modelling the saturating
cast opendp performs when shifting an unsigned vector by signed noise. -/
def u64_saturating_cast (x : Int) : Int :=
  min (max x 0) (U64_MAX : Int)

/-- One independent draw per entry, added and saturating-cast back to
`u64`, modelling the invocation of `make_base_discrete_laplace` /
`make_base_discrete_gaussian` on a count vector; `noise i` is the sample
drawn for index `i`, starting at index `k`. -/
def add_noise (noise : Nat → Int) : Nat → List Nat → List Int
  | _, [] => []
  | k, c :: cs => u64_saturating_cast ((c : Int) + noise k) :: add_noise noise (k + 1) cs

/-- Method `Noiser::aggregate_data`: invoke the aggregation chain on the borrowed
dataset body. -/
def Noiser.aggregate_data (s : Noiser) : Option (List Nat) :=
  aggregate s.dataset s.aggregate_field

/-- The `Noiser::noised_data` method (named `noised` here because the Rust
struct also has a field of that name): calibrate a scale for the current
mechanism from the current accuracy and alpha — the source `unwrap`s this,
so a calibration failure (modelled as `none`) aborts — then construct the
sampler, which per spec §4.4 fails on a non-positive scale, and apply one
independent draw per entry. -/
def Noiser.noised (s : Noiser) (noise : Nat → Int) (aggregated_data : List Nat) :
    Option (List Int) :=
  match s.noise_type with
  | NoiseType.Laplace =>
    match accuracy_to_discrete_laplacian_scale (s.accuracy : ℚ) s.alpha with
    | none => none
    | some scale => if 0 < scale then some (add_noise noise 0 aggregated_data) else none
  | NoiseType.Gaussian =>
    match accuracy_to_discrete_gaussian_scale (s.accuracy : ℚ) s.alpha with
    | none => none
    | some scale => if 0 < scale then some (add_noise noise 0 aggregated_data) else none

/-- Method `Noiser::clear_previous_data`: empty both cached vectors. -/
def Noiser.clear_previous_data (s : Noiser) : Noiser :=
  { s with aggregated_data := [], noised_data := [] }

/-- Method `Noiser::refresh_data`: clear both caches, recompute the true counts,
then the noised counts; the source `unwrap`s both stages, so either stage
failing is modelled as `none` (the aborted refresh). -/
def Noiser.refresh_data (noise : Nat → Int) (s : Noiser) : Option Noiser :=
  let s := s.clear_previous_data
  match s.aggregate_data with
  | none => none
  | some agg =>
    match s.noised noise agg with
    | none => none
    | some nd => some { s with aggregated_data := agg, noised_data := nd }

/-- Constant `ACCURACY_VALUES`: the compile-time array `[0, 1, ..., 99]`. -/
def ACCURACY_VALUES : List Nat := List.range 100

/-- The accuracy-index update performed by `Noiser::increase_noise`:
`(accuracy + 1) % ACCURACY_VALUES.len()`. -/
def increase_accuracy_index (a : Nat) : Nat :=
  (a + 1) % ACCURACY_VALUES.length

/-- The accuracy-index update performed by `Noiser::decrease_noise`:
`(accuracy + ACCURACY_VALUES.len() - 1) % ACCURACY_VALUES.len()`. -/
def decrease_accuracy_index (a : Nat) : Nat :=
  (a + ACCURACY_VALUES.length - 1) % ACCURACY_VALUES.length

/-- Constructor `Noiser::new`: initial state.  No refresh is performed; both cached
vectors start empty. -/
def Noiser.new (dataset : CsvDataSet) (aggregate_field : String) : Noiser :=
  { dataset := dataset
    aggregate_field := aggregate_field
    noise_type := NoiseType.Laplace
    accuracy := 0
    alpha := defaultAlpha
    aggregated_data := []
    noised_data := [] }

/-- Method `Noiser::toggle_noise_type`: flip the mechanism, then refresh. -/
def Noiser.toggle_noise_type (noise : Nat → Int) (s : Noiser) : Option Noiser :=
  Noiser.refresh_data noise
    { s with noise_type :=
        if s.noise_type = NoiseType.Laplace then NoiseType.Gaussian else NoiseType.Laplace }

/-- Method `Noiser::increase_noise`: advance the accuracy index modulo the table
length, then refresh. -/
def Noiser.increase_noise (noise : Nat → Int) (s : Noiser) : Option Noiser :=
  Noiser.refresh_data noise { s with accuracy := increase_accuracy_index s.accuracy }

/-- Method `Noiser::decrease_noise`: retreat the accuracy index modulo the table
length, then refresh. -/
def Noiser.decrease_noise (noise : Nat → Int) (s : Noiser) : Option Noiser :=
  Noiser.refresh_data noise { s with accuracy := decrease_accuracy_index s.accuracy }

/-- States of the Engine reachable from the initial state by successful
transitions (a transition whose refresh aborts produces no successor). -/
inductive Reachable (ds : CsvDataSet) (field : String) : Noiser → Prop where
  | init : Reachable ds field (Noiser.new ds field)
  | toggle (noise : Nat → Int) (s s' : Noiser) :
      Reachable ds field s → Noiser.toggle_noise_type noise s = some s' →
      Reachable ds field s'
  | inc (noise : Nat → Int) (s s' : Noiser) :
      Reachable ds field s → Noiser.increase_noise noise s = some s' →
      Reachable ds field s'
  | dec (noise : Nat → Int) (s s' : Noiser) :
      Reachable ds field s → Noiser.decrease_noise noise s = some s' →
      Reachable ds field s'
  | refresh (noise : Nat → Int) (s s' : Noiser) :
      Reachable ds field s → Noiser.refresh_data noise s = some s' →
      Reachable ds field s'

/-- A concrete state used by several witnesses: empty dataset body, field
`"educ"`, accuracy index 2, otherwise the constructor defaults. -/
def sampleNoiser : Noiser :=
  { Noiser.new ⟨""⟩ "educ" with accuracy := 2 }

/-- The state `sampleNoiser` reaches by a refresh that draws `d` at every
index: 21 zero counts (the empty body has no rows), each noised entry the
clamped draw. -/
def sampleRefreshed (d : Int) : Noiser :=
  { sampleNoiser with
      aggregated_data := List.replicate 21 0
      noised_data := List.replicate 21 (u64_saturating_cast d) }

/-! ### Helper lemmas -/

theorem sat_count_foldl (p : String → Bool) (l : List String) :
    ∀ acc, acc ≤ U64_MAX →
      l.foldl (fun c v => if p v then min (c + 1) U64_MAX else c) acc
        = min (acc + l.countP p) U64_MAX := by
  induction l with
  | nil => intro acc h; simp [Nat.min_eq_left h]
  | cons v vs ih =>
    intro acc h
    by_cases hp : p v
    · rw [List.foldl_cons, if_pos hp, List.countP_cons_of_pos _ _ hp,
        ih _ (Nat.min_le_right _ _)]
      omega
    · rw [List.foldl_cons, if_neg hp, List.countP_cons_of_neg _ _ hp, ih _ h]

theorem sat_count_eq (p : String → Bool) (l : List String) :
    sat_count p l = min (l.countP p) U64_MAX := by
  simpa using sat_count_foldl p l 0 (Nat.zero_le _)

theorem sat_count_eq_countP (p : String → Bool) (l : List String)
    (h : l.length ≤ U64_MAX) : sat_count p l = l.countP p := by
  rw [sat_count_eq]
  exact Nat.min_eq_left (Nat.le_trans (List.countP_le_length _) h)

theorem countP_or_disjoint (p q : String → Bool) (l : List String)
    (hpq : ∀ v, p v = true → q v = false) :
    l.countP (fun v => p v || q v) = l.countP p + l.countP q := by
  induction l with
  | nil => simp
  | cons v vs ih =>
    by_cases hp : p v
    · have hq : ¬ (q v = true) := by simp [hpq v hp]
      rw [List.countP_cons_of_pos _ _ (by simp [hp]),
        List.countP_cons_of_pos _ _ hp, List.countP_cons_of_neg _ _ hq, ih]
      omega
    · by_cases hq : q v
      · rw [List.countP_cons_of_pos _ _ (by simp [hq]),
          List.countP_cons_of_neg _ _ hp, List.countP_cons_of_pos _ _ hq, ih]
        omega
      · rw [List.countP_cons_of_neg _ _ (by simp [hp, hq]),
          List.countP_cons_of_neg _ _ hp, List.countP_cons_of_neg _ _ hq, ih]

theorem sum_map_countP_nodup (cats : List String) (l : List String)
    (hnd : cats.Nodup) :
    (cats.map (fun c => l.countP (fun v => v == c))).sum
      = l.countP (fun v => cats.contains v) := by
  induction cats with
  | nil => simp [List.countP_false, Function.const]
  | cons c cs ih =>
    have hc : c ∉ cs := (List.nodup_cons.mp hnd).1
    have hcs : cs.Nodup := (List.nodup_cons.mp hnd).2
    have hdisj : ∀ v : String, (v == c) = true → cs.contains v = false := by
      intro v hv
      have : v = c := eq_of_beq hv
      subst this
      simpa using hc
    calc (((c :: cs).map (fun c => l.countP (fun v => v == c))).sum)
        = l.countP (fun v => v == c) + (cs.map (fun c => l.countP (fun v => v == c))).sum := by
          simp
      _ = l.countP (fun v => v == c) + l.countP (fun v => cs.contains v) := by rw [ih hcs]
      _ = l.countP (fun v => (v == c) || cs.contains v) := (countP_or_disjoint _ _ l hdisj).symm
      _ = l.countP (fun v => (c :: cs).contains v) := by
          apply List.countP_congr
          intro x _
          simp [List.contains_cons]

theorem aggregate_buckets_nodup (ds : CsvDataSet) (field : String) :
    (ds.aggregate_buckets field).Nodup := by
  unfold CsvDataSet.aggregate_buckets
  split
  · decide
  · decide

theorem countP_bool_not (p : String → Bool) (l : List String) :
    l.countP (fun v => !(p v)) + l.countP p = l.length := by
  induction l with
  | nil => simp
  | cons v vs ih =>
    by_cases hv : p v <;> simp [List.countP_cons, hv] <;> omega

theorem add_noise_length (noise : Nat → Int) (k : Nat) (l : List Nat) :
    (add_noise noise k l).length = l.length := by
  induction l generalizing k with
  | nil => rfl
  | cons c cs ih => simp [add_noise, ih]

theorem add_noise_get (noise : Nat → Int) (k : Nat) (l : List Nat) :
    ∀ (i : Nat) (hi : i < (add_noise noise k l).length) (hi' : i < l.length),
      (add_noise noise k l).get ⟨i, hi⟩
        = u64_saturating_cast ((l.get ⟨i, hi'⟩ : Int) + noise (k + i)) := by
  induction l generalizing k with
  | nil => intro i hi hi'; exact absurd hi' (by simp)
  | cons c cs ih =>
    intro i hi hi'
    cases i with
    | zero => simp [add_noise]
    | succ j =>
      have := ih (k + 1) j (by simpa [add_noise] using hi) (by simpa using hi')
      simpa [add_noise, Nat.add_assoc, Nat.add_comm 1 j] using this

theorem u64_saturating_cast_bounds (x : Int) :
    0 ≤ u64_saturating_cast x ∧ u64_saturating_cast x ≤ (U64_MAX : Int) := by
  unfold u64_saturating_cast
  constructor
  · exact le_min (le_max_right x 0) (by positivity)
  · exact min_le_right _ _

theorem add_noise_mem_bounds (noise : Nat → Int) (k : Nat) (l : List Nat) :
    ∀ x ∈ add_noise noise k l, 0 ≤ x ∧ x ≤ (U64_MAX : Int) := by
  induction l generalizing k with
  | nil => intro x hx; exact absurd hx (by simp [add_noise])
  | cons c cs ih =>
    intro x hx
    rcases (by simpa [add_noise] using hx :
        x = u64_saturating_cast ((c : Int) + noise k) ∨ x ∈ add_noise noise (k + 1) cs) with h | h
    · exact h ▸ u64_saturating_cast_bounds _
    · exact ih (k + 1) x h

theorem noised_eq_add_noise (s : Noiser) (noise : Nat → Int) (agg : List Nat)
    (nd : List Int) (h : s.noised noise agg = some nd) :
    nd = add_noise noise 0 agg := by
  unfold Noiser.noised at h
  split at h <;> split at h
  · exact absurd h (by simp)
  · split at h
    · exact (Option.some_inj.mp h).symm
    · exact absurd h (by simp)
  · exact absurd h (by simp)
  · split at h
    · exact (Option.some_inj.mp h).symm
    · exact absurd h (by simp)

theorem clear_previous_data_fields (s : Noiser) :
    (s.clear_previous_data).dataset = s.dataset ∧
    (s.clear_previous_data).aggregate_field = s.aggregate_field ∧
    (s.clear_previous_data).noise_type = s.noise_type ∧
    (s.clear_previous_data).accuracy = s.accuracy ∧
    (s.clear_previous_data).alpha = s.alpha := by
  simp [Noiser.clear_previous_data]

theorem refresh_data_some (noise : Nat → Int) (s s' : Noiser)
    (h : Noiser.refresh_data noise s = some s') :
    s'.dataset = s.dataset ∧ s'.aggregate_field = s.aggregate_field ∧
    s'.noise_type = s.noise_type ∧ s'.accuracy = s.accuracy ∧ s'.alpha = s.alpha ∧
    aggregate s.dataset s.aggregate_field = some s'.aggregated_data := by
  simp only [Noiser.refresh_data] at h
  split at h
  · exact absurd h (by simp)
  · rename_i agg hagg
    split at h
    · exact absurd h (by simp)
    · rename_i nd hnd
      have hs' : s' = { s.clear_previous_data with aggregated_data := agg, noised_data := nd } :=
        (Option.some_inj.mp h).symm
      subst hs'
      refine ⟨rfl, rfl, rfl, rfl, rfl, ?_⟩
      simpa [Noiser.aggregate_data, Noiser.clear_previous_data] using hagg

/-! ### Claim theorems -/

/-- C2: the bucket enumeration is a pure function of the field name alone
(the dataset receiver is irrelevant); `"income"` maps to the labels
`10000, 20000, ..., 200000`, and every other field name maps to the labels
`"1"` through `"20"`. -/
theorem aggregate_buckets_pure (ds ds' : CsvDataSet) (field : String) :
    ds.aggregate_buckets field = ds'.aggregate_buckets field ∧
    ds.aggregate_buckets "income" =
      ["10000", "20000", "30000", "40000", "50000", "60000", "70000", "80000", "90000",
       "100000", "110000", "120000", "130000", "140000", "150000", "160000", "170000",
       "180000", "190000", "200000"] ∧
    (field ≠ "income" → ds.aggregate_buckets field =
      ["1", "2", "3", "4", "5", "6", "7", "8", "9", "10", "11", "12", "13", "14", "15",
       "16", "17", "18", "19", "20"]) := by
  refine ⟨rfl, ?_, ?_⟩
  · show (if ("income" : String) = "income" then _ else _) = _
    rw [if_pos rfl]
    decide
  · intro h
    show (if field = "income" then _ else _) = _
    rw [if_neg h]
    decide

/-- Witness for C2 at `field := "educ"` and two different datasets. -/
theorem aggregate_buckets_pure_witness :
    CsvDataSet.aggregate_buckets ⟨""⟩ "educ" = CsvDataSet.aggregate_buckets ⟨"x,y"⟩ "educ" ∧
    CsvDataSet.aggregate_buckets ⟨""⟩ "educ" =
      ["1", "2", "3", "4", "5", "6", "7", "8", "9", "10", "11", "12", "13", "14", "15",
       "16", "17", "18", "19", "20"] :=
  ⟨(aggregate_buckets_pure ⟨""⟩ ⟨"x,y"⟩ "educ").1,
   (aggregate_buckets_pure ⟨""⟩ ⟨"x,y"⟩ "educ").2.2 (by decide)⟩

/-- C5: at the maximum accuracy index (`ACCURACY_VALUES.length - 1 = 99`)
`increase_noise` wraps the index to 0; at index 0 `decrease_noise` wraps it
to the maximum; at every other in-range index they add, resp. subtract, 1. -/
theorem accuracy_index_wrap (a : Nat) :
    (a = ACCURACY_VALUES.length - 1 → increase_accuracy_index a = 0) ∧
    (a = 0 → decrease_accuracy_index a = ACCURACY_VALUES.length - 1) ∧
    (a < ACCURACY_VALUES.length - 1 → increase_accuracy_index a = a + 1) ∧
    (0 < a → a < ACCURACY_VALUES.length → decrease_accuracy_index a = a - 1) := by
  unfold increase_accuracy_index decrease_accuracy_index ACCURACY_VALUES
  simp only [List.length_range]
  refine ⟨?_, ?_, ?_, ?_⟩ <;> intros <;> omega

/-- Witness for C5 at the wrap points 99 and 0 and the interior point 5. -/
theorem accuracy_index_wrap_witness :
    increase_accuracy_index 99 = 0 ∧ decrease_accuracy_index 0 = 99 ∧
    increase_accuracy_index 5 = 6 ∧ decrease_accuracy_index 5 = 4 :=
  ⟨(accuracy_index_wrap 99).1 (by decide),
   (by decide : (99 : Nat) = 99) ▸ (accuracy_index_wrap 0).2.1 rfl,
   (accuracy_index_wrap 5).2.2.1 (by decide),
   (accuracy_index_wrap 5).2.2.2 (by decide) (by decide)⟩

/-- C6: for every Engine state whose accuracy index lies in the index range
of the accuracy table, increasing then decreasing (or decreasing then
increasing) the accuracy index restores its original value. -/
theorem accuracy_index_roundtrip (s : Noiser)
    (h : s.accuracy < ACCURACY_VALUES.length) :
    decrease_accuracy_index (increase_accuracy_index s.accuracy) = s.accuracy ∧
    increase_accuracy_index (decrease_accuracy_index s.accuracy) = s.accuracy := by
  unfold increase_accuracy_index decrease_accuracy_index
  unfold ACCURACY_VALUES at *
  simp only [List.length_range] at *
  omega

/-- Witness for C6 at the concrete state `sampleNoiser`. -/
theorem accuracy_index_roundtrip_witness :
    decrease_accuracy_index (increase_accuracy_index sampleNoiser.accuracy)
        = sampleNoiser.accuracy ∧
    increase_accuracy_index (decrease_accuracy_index sampleNoiser.accuracy)
        = sampleNoiser.accuracy :=
  accuracy_index_roundtrip sampleNoiser (by decide)

/-- C7: scale calibration fails (returns no scale) for both mechanisms
whenever `accuracy ≤ 0` or `alpha` lies outside the open interval `(0,1)`. -/
theorem calibration_fails_outside_domain (accuracy alpha : ℚ)
    (h : accuracy ≤ 0 ∨ alpha ≤ 0 ∨ 1 ≤ alpha) :
    accuracy_to_discrete_laplacian_scale accuracy alpha = none ∧
    accuracy_to_discrete_gaussian_scale accuracy alpha = none := by
  have hc : ¬ (0 < accuracy ∧ 0 < alpha ∧ alpha < 1) := by
    rintro ⟨h1, h2, h3⟩
    rcases h with h | h | h <;> linarith
  constructor
  · unfold accuracy_to_discrete_laplacian_scale
    rw [if_neg hc]
  · unfold accuracy_to_discrete_gaussian_scale
    rw [if_neg hc]

/-- Witness for C7: calibrating with `accuracy = 0`, `alpha = 0`, or
`alpha = 1` fails. -/
theorem calibration_fails_outside_domain_witness :
    accuracy_to_discrete_laplacian_scale 0 defaultAlpha = none ∧
    accuracy_to_discrete_gaussian_scale 0 defaultAlpha = none ∧
    accuracy_to_discrete_laplacian_scale 1 0 = none ∧
    accuracy_to_discrete_laplacian_scale 1 1 = none :=
  ⟨(calibration_fails_outside_domain 0 defaultAlpha (Or.inl (by decide))).1,
   (calibration_fails_outside_domain 0 defaultAlpha (Or.inl (by decide))).2,
   (calibration_fails_outside_domain 1 0 (Or.inr (Or.inl (by decide)))).1,
   (calibration_fails_outside_domain 1 1 (Or.inr (Or.inr (by decide)))).1⟩

/-- C4 (amended): immediately after construction the mechanism is Laplace,
the accuracy index is 0, alpha is the default `0.05 = 1/20`, and both
cached vectors are *empty*: the constructor performs no initial refresh.
Indeed no refresh can succeed from this state, because scale calibration
rejects the initial accuracy 0. -/
theorem new_initial_state (ds : CsvDataSet) (field : String) (noise : Nat → Int) :
    (Noiser.new ds field).noise_type = NoiseType.Laplace ∧
    (Noiser.new ds field).accuracy = 0 ∧
    (Noiser.new ds field).alpha = 1 / 20 ∧
    (Noiser.new ds field).aggregated_data = [] ∧
    (Noiser.new ds field).noised_data = [] ∧
    Noiser.refresh_data noise (Noiser.new ds field) = none := by
  have hzero : ∀ t : Noiser, t.accuracy = 0 → ∀ agg, t.noised noise agg = none := by
    intro t ht agg
    have hl : accuracy_to_discrete_laplacian_scale ((t.accuracy : ℚ)) t.alpha = none := by
      unfold accuracy_to_discrete_laplacian_scale
      rw [if_neg]
      rintro ⟨h1, -, -⟩
      rw [ht] at h1
      norm_num at h1
    have hg : accuracy_to_discrete_gaussian_scale ((t.accuracy : ℚ)) t.alpha = none := by
      unfold accuracy_to_discrete_gaussian_scale
      rw [if_neg]
      rintro ⟨h1, -, -⟩
      rw [ht] at h1
      norm_num at h1
    unfold Noiser.noised
    cases hm : t.noise_type <;> simp [hl, hg]
  refine ⟨rfl, rfl, ?_, rfl, rfl, ?_⟩
  · show defaultAlpha = 1 / 20
    rw [show (1 / 20 : ℚ) = mkRat 1 20 by norm_num [Rat.mkRat_eq_div]]
    decide
  · simp only [Noiser.refresh_data]
    cases hagg : ((Noiser.new ds field).clear_previous_data).aggregate_data with
    | none => rfl
    | some agg => simp [hzero ((Noiser.new ds field).clear_previous_data) rfl]

/-- C4 counterexample: on a concrete one-row dataset the freshly
constructed Engine holds two *empty* cached vectors — not vectors populated
by an implicit initial refresh — and the refresh that would populate them
aborts (calibration rejects the initial accuracy 0). -/
theorem new_vectors_empty_counterexample :
    (Noiser.new ⟨"1,1,9,1,1,1"⟩ "educ").aggregated_data = [] ∧
    (Noiser.new ⟨"1,1,9,1,1,1"⟩ "educ").noised_data = [] ∧
    Noiser.refresh_data (fun _ => 0) (Noiser.new ⟨"1,1,9,1,1,1"⟩ "educ") = none :=
  ⟨rfl, rfl, by decide⟩

/-- C3 (amended): whenever noise application succeeds, the noised vector
has the same length as the input count vector and is aligned index for
index with it — entry `i` is count `i` plus the `i`-th independent draw —
but its entries are `u64` values saturating-cast into `[0, u64::MAX]`: an
entry is never negative. -/
theorem noised_vector_shape (s : Noiser) (noise : Nat → Int) (agg : List Nat)
    (nd : List Int) (h : s.noised noise agg = some nd) :
    nd.length = agg.length ∧
    (∀ (i : Nat) (hi : i < nd.length) (hi' : i < agg.length),
      nd.get ⟨i, hi⟩ = u64_saturating_cast ((agg.get ⟨i, hi'⟩ : Int) + noise i)) ∧
    (∀ x ∈ nd, 0 ≤ x ∧ x ≤ (U64_MAX : Int)) := by
  have hnd := noised_eq_add_noise s noise agg nd h
  subst hnd
  refine ⟨add_noise_length _ _ _, ?_, add_noise_mem_bounds _ _ _⟩
  intro i hi hi'
  simpa using add_noise_get noise 0 agg i hi hi'

/-- Witness for C3 on the concrete state `sampleNoiser`, counts `[0, 5]`
and the constant draw `-5`. -/
theorem noised_vector_shape_witness :
    [(0 : Int), 0].length = [(0 : Nat), 5].length ∧
    (∀ (i : Nat) (hi : i < [(0 : Int), 0].length) (hi' : i < [(0 : Nat), 5].length),
      [(0 : Int), 0].get ⟨i, hi⟩
        = u64_saturating_cast (([(0 : Nat), 5].get ⟨i, hi'⟩ : Int) + (fun _ => (-5 : Int)) i)) ∧
    (∀ x ∈ [(0 : Int), 0], 0 ≤ x ∧ x ≤ (U64_MAX : Int)) :=
  noised_vector_shape sampleNoiser (fun _ => (-5 : Int)) [0, 5] [0, 0] (by decide)

/-- C3 counterexample: a noised entry cannot be negative.  On count 0 the
concrete draw `-5` would make the entry `-5`, yet the emitted vector is
`[0]` — the negative sum saturates to 0 and every emitted entry is
non-negative. -/
theorem noised_entry_nonnegative_counterexample :
    Noiser.noised sampleNoiser (fun _ => (-5 : Int)) [0] = some [0] ∧
    ((0 : Nat) : Int) + (-5) < 0 ∧
    (∀ x ∈ [(0 : Int)], 0 ≤ x) :=
  ⟨by decide, by decide, by decide⟩

/-- C8: aggregation is deterministic — two successive successful refreshes
with no intervening transition (whatever noise the two refreshes draw)
cache the identical true-count vector. -/
theorem refresh_aggregation_deterministic (s s1 s2 : Noiser) (n1 n2 : Nat → Int)
    (h1 : Noiser.refresh_data n1 s = some s1)
    (h2 : Noiser.refresh_data n2 s1 = some s2) :
    s2.aggregated_data = s1.aggregated_data := by
  obtain ⟨hd1, hf1, -, -, -, hagg1⟩ := refresh_data_some _ _ _ h1
  obtain ⟨-, -, -, -, -, hagg2⟩ := refresh_data_some _ _ _ h2
  rw [hd1, hf1, hagg1] at hagg2
  exact (Option.some_inj.mp hagg2).symm

/-- Witness for C8: two refreshes of `sampleNoiser` drawing different
noise (`+3` then `-3`) cache the same true-count vector. -/
theorem refresh_aggregation_deterministic_witness :
    (sampleRefreshed (-3)).aggregated_data = (sampleRefreshed 3).aggregated_data :=
  refresh_aggregation_deterministic sampleNoiser (sampleRefreshed 3) (sampleRefreshed (-3))
    (fun _ => 3) (fun _ => -3) (by decide) (by decide)

/-- C10: each successful mutator touches only its own parameter besides the
recomputed cached vectors — `toggle_noise_type` flips the mechanism and
preserves accuracy, alpha, field and dataset; `increase_noise` /
`decrease_noise` update only the accuracy index; `refresh_data` preserves
all parameters.  No transition changes alpha or the active field. -/
theorem transitions_frame (noise : Nat → Int) (s s' : Noiser) :
    (Noiser.toggle_noise_type noise s = some s' →
      s'.noise_type ≠ s.noise_type ∧ s'.accuracy = s.accuracy ∧ s'.alpha = s.alpha ∧
      s'.aggregate_field = s.aggregate_field ∧ s'.dataset = s.dataset) ∧
    (Noiser.increase_noise noise s = some s' →
      s'.accuracy = increase_accuracy_index s.accuracy ∧ s'.noise_type = s.noise_type ∧
      s'.alpha = s.alpha ∧ s'.aggregate_field = s.aggregate_field ∧ s'.dataset = s.dataset) ∧
    (Noiser.decrease_noise noise s = some s' →
      s'.accuracy = decrease_accuracy_index s.accuracy ∧ s'.noise_type = s.noise_type ∧
      s'.alpha = s.alpha ∧ s'.aggregate_field = s.aggregate_field ∧ s'.dataset = s.dataset) ∧
    (Noiser.refresh_data noise s = some s' →
      s'.noise_type = s.noise_type ∧ s'.accuracy = s.accuracy ∧ s'.alpha = s.alpha ∧
      s'.aggregate_field = s.aggregate_field ∧ s'.dataset = s.dataset) := by
  refine ⟨?_, ?_, ?_, ?_⟩
  · intro h
    obtain ⟨hd, hf, hm, ha, hal, -⟩ := refresh_data_some _ _ _ h
    simp only [Noiser.clear_previous_data] at hd hf hm ha hal
    refine ⟨?_, ha, hal, hf, hd⟩
    rw [hm]
    cases hnt : s.noise_type <;> simp [hnt]
  · intro h
    obtain ⟨hd, hf, hm, ha, hal, -⟩ := refresh_data_some _ _ _ h
    exact ⟨ha, hm, hal, hf, hd⟩
  · intro h
    obtain ⟨hd, hf, hm, ha, hal, -⟩ := refresh_data_some _ _ _ h
    exact ⟨ha, hm, hal, hf, hd⟩
  · intro h
    obtain ⟨hd, hf, hm, ha, hal, -⟩ := refresh_data_some _ _ _ h
    exact ⟨hm, ha, hal, hf, hd⟩

/-- Witness for C10: all four transitions of `sampleNoiser`, with zero
noise draws, preserve exactly the advertised fields. -/
theorem transitions_frame_witness :
    ({ sampleRefreshed 0 with noise_type := NoiseType.Gaussian }.noise_type
        ≠ sampleNoiser.noise_type ∧
     { sampleRefreshed 0 with noise_type := NoiseType.Gaussian }.alpha = sampleNoiser.alpha) ∧
    ({ sampleRefreshed 0 with accuracy := 3 }.accuracy
        = increase_accuracy_index sampleNoiser.accuracy ∧
     { sampleRefreshed 0 with accuracy := 3 }.aggregate_field = sampleNoiser.aggregate_field) ∧
    ({ sampleRefreshed 0 with accuracy := 1 }.accuracy
        = decrease_accuracy_index sampleNoiser.accuracy) ∧
    ((sampleRefreshed 0).accuracy = sampleNoiser.accuracy) :=
  ⟨⟨((transitions_frame (fun _ => 0) sampleNoiser
        { sampleRefreshed 0 with noise_type := NoiseType.Gaussian }).1 (by decide)).1,
    ((transitions_frame (fun _ => 0) sampleNoiser
        { sampleRefreshed 0 with noise_type := NoiseType.Gaussian }).1 (by decide)).2.2.1⟩,
   ⟨((transitions_frame (fun _ => 0) sampleNoiser
        { sampleRefreshed 0 with accuracy := 3 }).2.1 (by decide)).1,
    ((transitions_frame (fun _ => 0) sampleNoiser
        { sampleRefreshed 0 with accuracy := 3 }).2.1 (by decide)).2.2.2.1⟩,
   ((transitions_frame (fun _ => 0) sampleNoiser
        { sampleRefreshed 0 with accuracy := 1 }).2.2.1 (by decide)).1,
   ((transitions_frame (fun _ => 0) sampleNoiser (sampleRefreshed 0)).2.2.2 (by decide)).2.1⟩

/-- C9: in every state reachable from the initial Engine state by any
sequence of successful transitions, the accuracy index stays strictly
below 100, the length of the fixed accuracy-value table. -/
theorem reachable_accuracy_bounded (ds : CsvDataSet) (field : String) (s : Noiser)
    (h : Reachable ds field s) :
    s.accuracy < 100 ∧ ACCURACY_VALUES.length = 100 := by
  refine ⟨?_, by simp [ACCURACY_VALUES]⟩
  induction h with
  | init =>
    show (0 : Nat) < 100
    decide
  | toggle noise t t' _ heq ih =>
    obtain ⟨-, -, -, ha, -, -⟩ := refresh_data_some _ _ _ heq
    simp only [Noiser.clear_previous_data] at ha
    omega
  | inc noise t t' _ heq ih =>
    obtain ⟨-, -, -, ha, -, -⟩ := refresh_data_some _ _ _ heq
    simp only [Noiser.clear_previous_data] at ha
    have : increase_accuracy_index t.accuracy < 100 := by
      unfold increase_accuracy_index ACCURACY_VALUES
      simp only [List.length_range]
      omega
    omega
  | dec noise t t' _ heq ih =>
    obtain ⟨-, -, -, ha, -, -⟩ := refresh_data_some _ _ _ heq
    simp only [Noiser.clear_previous_data] at ha
    have : decrease_accuracy_index t.accuracy < 100 := by
      unfold decrease_accuracy_index ACCURACY_VALUES
      simp only [List.length_range]
      omega
    omega
  | refresh noise t t' _ heq ih =>
    obtain ⟨-, -, -, ha, -, -⟩ := refresh_data_some _ _ _ heq
    omega

/-- Witness for C9 at the initial state over a concrete dataset. -/
theorem reachable_accuracy_bounded_witness :
    (Noiser.new ⟨""⟩ "educ").accuracy < 100 ∧ ACCURACY_VALUES.length = 100 :=
  reachable_accuracy_bounded ⟨""⟩ "educ" (Noiser.new ⟨""⟩ "educ") Reachable.init

/-- C1 (amended): a successful aggregation returns a count vector whose
length is the length of the field's bucket enumeration *plus one*: the
first `|buckets|` entries are the per-bucket counts, whose sum is the
number of input rows whose value for the field appears in the enumeration,
and the extra trailing null-category entry absorbs every remaining row, so
the total sum is the number of input rows (`sel` is the selected column,
one value per row; the row-count bound keeps the `u64` counters away from
saturation). -/
theorem aggregate_null_category_shape (ds : CsvDataSet) (field : String)
    (sel : List String)
    (hsel : select_column ds.columns field (split_records CSV_SEPARATOR ds.data) = some sel)
    (hlen : sel.length ≤ U64_MAX) :
    aggregate ds field = some (count_by_categories (ds.aggregate_buckets field) sel) ∧
    (count_by_categories (ds.aggregate_buckets field) sel).length
      = (ds.aggregate_buckets field).length + 1 ∧
    ((count_by_categories (ds.aggregate_buckets field) sel).take
        (ds.aggregate_buckets field).length).sum
      = sel.countP (fun v => (ds.aggregate_buckets field).contains v) ∧
    (count_by_categories (ds.aggregate_buckets field) sel).sum = sel.length := by
  have hnd : (ds.aggregate_buckets field).Nodup := aggregate_buckets_nodup ds field
  have hmap : (ds.aggregate_buckets field).map
        (fun cat => sat_count (fun v => v == cat) sel)
      = (ds.aggregate_buckets field).map (fun cat => sel.countP (fun v => v == cat)) :=
    List.map_congr_left (fun c _ => sat_count_eq_countP _ _ hlen)
  have hnull : sat_count (fun v => !((ds.aggregate_buckets field).contains v)) sel
      = sel.countP (fun v => !((ds.aggregate_buckets field).contains v)) :=
    sat_count_eq_countP _ _ hlen
  refine ⟨?_, ?_, ?_, ?_⟩
  · simp [aggregate, hsel]
  · simp [count_by_categories]
  · unfold count_by_categories
    rw [List.take_left' (by simp), hmap, sum_map_countP_nodup _ _ hnd]
  · unfold count_by_categories
    rw [List.sum_append, hmap, sum_map_countP_nodup _ _ hnd, hnull]
    have := countP_bool_not (fun v => (ds.aggregate_buckets field).contains v) sel
    simp only [List.sum_cons, List.sum_nil]
    omega

/-- Witness for C1 on a concrete two-row dataset with `"educ"` values 9 and
15 (both inside the enumeration). -/
theorem aggregate_null_category_shape_witness :
    aggregate ⟨"1,1,9,1,1,1\n2,2,15,2,2,2"⟩ "educ"
      = some (count_by_categories
          (CsvDataSet.aggregate_buckets ⟨"1,1,9,1,1,1\n2,2,15,2,2,2"⟩ "educ") ["9", "15"]) ∧
    (count_by_categories
        (CsvDataSet.aggregate_buckets ⟨"1,1,9,1,1,1\n2,2,15,2,2,2"⟩ "educ") ["9", "15"]).length
      = (CsvDataSet.aggregate_buckets ⟨"1,1,9,1,1,1\n2,2,15,2,2,2"⟩ "educ").length + 1 ∧
    ((count_by_categories
        (CsvDataSet.aggregate_buckets ⟨"1,1,9,1,1,1\n2,2,15,2,2,2"⟩ "educ") ["9", "15"]).take
        (CsvDataSet.aggregate_buckets ⟨"1,1,9,1,1,1\n2,2,15,2,2,2"⟩ "educ").length).sum
      = List.countP
          (fun v => (CsvDataSet.aggregate_buckets ⟨"1,1,9,1,1,1\n2,2,15,2,2,2"⟩ "educ").contains v)
          ["9", "15"] ∧
    (count_by_categories
        (CsvDataSet.aggregate_buckets ⟨"1,1,9,1,1,1\n2,2,15,2,2,2"⟩ "educ") ["9", "15"]).sum
      = (["9", "15"] : List String).length :=
  aggregate_null_category_shape ⟨"1,1,9,1,1,1\n2,2,15,2,2,2"⟩ "educ" ["9", "15"]
    (by decide) (by decide)

/-- C1 counterexample: on a concrete one-row dataset whose `"educ"` value
`"99"` lies outside the bucket enumeration, the aggregation result has
length 21, not the enumeration length 20, and its entries sum to 1, not to
the number of rows whose value is in the enumeration (0): the
out-of-enumeration row is counted by the trailing null-category entry
rather than excluded. -/
theorem aggregate_length_counterexample :
    select_column (CsvDataSet.columns ⟨"1,1,99,1,1,1"⟩) "educ"
        (split_records CSV_SEPARATOR "1,1,99,1,1,1") = some ["99"] ∧
    aggregate ⟨"1,1,99,1,1,1"⟩ "educ" = some (List.replicate 20 0 ++ [1]) ∧
    (List.replicate 20 (0 : Nat) ++ [1]).length
      ≠ (CsvDataSet.aggregate_buckets ⟨"1,1,99,1,1,1"⟩ "educ").length ∧
    (List.replicate 20 (0 : Nat) ++ [1]).sum
      ≠ List.countP
          (fun v => (CsvDataSet.aggregate_buckets ⟨"1,1,99,1,1,1"⟩ "educ").contains v)
          ["99"] :=
  ⟨by decide, by decide, by decide, by decide⟩

end SimplePrivi
